import Mathlib

/-!
Shallow embedding of `src/i2ite.py` (I2ITE: ITE EC SMBus debug tool).

Conventions of the translation:
* Python integers are modelled as `Int` for method parameters (addresses,
  data); the simulated register file stores validated bytes as `Nat`.
* Python's arithmetic shift and mask on ints are encoded arithmetically:
  `x >> n` is `x / 2^n` (Lean's `Int` division is floor division, exactly
  Python's `//`), and `x & (2^k - 1)` is `x % 2^k` (Lean's `Int.emod` is
  non-negative for positive modulus, exactly Python's `%`).
* Fallible code returns through an error-carrying state monad `M`:
  a Python `raise` becomes an `Except.error` that keeps the state reached
  so far (Python mutations before a raise persist on the object).
* The pyftdi transport (an external collaborator of the repository) is
  modelled, as stipulated by the spec's testable properties, as a simulated
  register file standing in for the Transport Adapter, together with a
  transaction log and an optional injected transport fault (`failAt`).
-/

/-- `BITBANG_PATTERN` from the source: the 8-byte debug-activation pattern. -/
def BITBANG_PATTERN : List Nat := [0x00, 0x00, 0x02, 0x03, 0x01, 0x01, 0x03, 0x02]

/-- `BITBANG_LENGTH` from the source. -/
def BITBANG_LENGTH : Nat := 16000

/-- `wave = BITBANG_PATTERN * int(BITBANG_LENGTH / 8)` from `_send_dbgr_waveform`:
list repetition is concatenation of 2000 copies of the pattern. -/
def wave : List Nat := (List.replicate (BITBANG_LENGTH / 8) BITBANG_PATTERN).flatten

namespace ADDR

namespace I2C

def CMD : Nat := 0x5a

def DATA : Nat := 0x35

def BLOCK : Nat := 0x79

end I2C

namespace DBGR

def CHIPIDH : Nat := 0x00

def CHIPIDL : Nat := 0x01

def CHIPVER : Nat := 0x02

def ECINDAR0 : Nat := 0x04

def ECINDAR1 : Nat := 0x05

def ECINDAR2 : Nat := 0x06

def ECINDAR3 : Nat := 0x07

def ECINDDR : Nat := 0x08

def BREAK : Nat := 0x27

def PCL : Nat := 0x2a

def PCM : Nat := 0x2b

def PCH : Nat := 0x2c

def XADDRL : Nat := 0x2e

def XADDRH : Nat := 0x2f

def XDATA : Nat := 0x30

def BKP1L : Nat := 0x40

def BKP1M : Nat := 0x41

def BKP1H : Nat := 0x42

end DBGR

namespace XRAM

def FLHCTRL3R : Nat := 0x1063

def FLHCTRL3R_FFSPITRI : Int := 1

def FLHCTRL3R_SIFE : Int := 8

def SLVISELR : Nat := 0x1c34

def ETWCTRL : Nat := 0x1f05

def SFR : Nat := 0xbf00

def IRAM : Nat := 0xff00

end XRAM

end ADDR

/-- A register file: an association list from register number to the byte
last written there; unwritten registers read as 0.  Modelled from the spec:
the "simulated register file standing in for the Transport Adapter". -/
def RegFile : Type := List (Nat × Nat)

instance : DecidableEq RegFile := by
  unfold RegFile
  infer_instance

/-- Read a register (first, i.e. most recent, binding wins; default 0). -/
def rfGet (f : RegFile) (a : Nat) : Nat :=
  match f.find? (fun p => p.1 == a) with
  | some p => p.2
  | none => 0

/-- Write a register. -/
def rfSet (f : RegFile) (a v : Nat) : RegFile := (a, v) :: f

/-- State of the simulated EC behind the I2C bus.  Modelled from the spec:
writing the I2C `CMD` register selects a DBGR register; reading/writing the
I2C `DATA` register accesses the selected DBGR register, except that the
`XDATA` register is a window into XRAM at address `XADDRH * 256 + XADDRL`
(the spec's "two DBGR writes (XADDRH, XADDRL) + one DBGR read/write (XDATA)"
mapping). -/
structure EcState where
  cmd : Nat
  dbgr : RegFile
  xram : RegFile
  deriving DecidableEq

/-- One byte arriving at the simulated EC over I2C. -/
def ecWriteByte (ec : EcState) (i2cAddr b : Nat) : EcState :=
  if i2cAddr = ADDR.I2C.CMD then { ec with cmd := b }
  else if i2cAddr = ADDR.I2C.DATA then
    if ec.cmd = ADDR.DBGR.XDATA then
      { ec with xram := rfSet ec.xram (rfGet ec.dbgr ADDR.DBGR.XADDRH * 256 + rfGet ec.dbgr ADDR.DBGR.XADDRL) b }
    else { ec with dbgr := rfSet ec.dbgr ec.cmd b }
  else ec

/-- One byte read from the simulated EC over I2C. -/
def ecReadByte (ec : EcState) (i2cAddr : Nat) : Nat :=
  if i2cAddr = ADDR.I2C.DATA then
    if ec.cmd = ADDR.DBGR.XDATA then
      rfGet ec.xram (rfGet ec.dbgr ADDR.DBGR.XADDRH * 256 + rfGet ec.dbgr ADDR.DBGR.XADDRL)
    else rfGet ec.dbgr ec.cmd
  else 0

/-- One logged transport transaction. -/
inductive Txn where
  | write (i2cAddr : Nat) (data : List Nat) (relax : Bool)
  | read (i2cAddr : Nat) (count : Nat) (relax : Bool)
  | gpio (data : List Nat)
  deriving DecidableEq

/-- Whole machine state: the `I2ITE` object's fields (`connected`,
`_xaddrh`, `_breakpoints`, and whether `self.con` is an open controller)
plus the simulated transport (EC register file, transaction log, and an
optional injected fault: the transaction with index `failAt` in the log
fails at the transport level). -/
structure Machine where
  connected : Bool
  conOpen : Bool
  xaddrh : Int
  breakpoints : List Int
  ec : EcState
  log : List Txn
  failAt : Option Nat
  deriving DecidableEq

/-- The monad of the embedding: state plus string errors, where an error
keeps the state reached so far (a Python exception does not roll back
earlier attribute mutations). -/
def M (α : Type) : Type := Machine → Except String α × Machine

instance : Monad M where
  pure a := fun m => (Except.ok a, m)
  bind x f := fun m =>
    match x m with
    | (Except.ok a, m') => f a m'
    | (Except.error e, m') => (Except.error e, m')

/-- Raise an exception. -/
def throwM {α : Type} (e : String) : M α := fun m => (Except.error e, m)

/-- Read the machine state. -/
def getM : M Machine := fun m => (Except.ok m, m)

/-- Update the machine state. -/
def modifyM (f : Machine → Machine) : M Unit := fun m => (Except.ok (), f m)

/-- `data.all (0 <= b <= 0xff)`: the byte-range validation `bytearray`
performs on the data handed to the transport. -/
def validBytes (data : List Int) : Bool :=
  data.all fun b => decide (0 ≤ b) && decide (b ≤ 0xff)

/-- `self.con.write(i2cAddr, data, relax=relax)`: validate the bytes, then
deliver them to the simulated EC and log the transaction (or fail if the
injected transport fault is scheduled for this transaction). -/
def con_write (i2cAddr : Nat) (data : List Int) (relax : Bool) : M Unit := fun m =>
  if validBytes data then
    if m.failAt = some m.log.length then (Except.error "transport error", m)
    else
      let bytes := data.map Int.toNat
      (Except.ok (), { m with
        ec := bytes.foldl (fun e b => ecWriteByte e i2cAddr b) m.ec,
        log := m.log ++ [Txn.write i2cAddr bytes relax] })
  else (Except.error "byte out of range", m)

/-- `self.con.read(i2cAddr, count, relax=relax)`: read `count` bytes from
the simulated EC and log the transaction (or fail if the injected transport
fault is scheduled for this transaction). -/
def con_read (i2cAddr : Nat) (count : Nat) (relax : Bool) : M (List Nat) := fun m =>
  if m.failAt = some m.log.length then (Except.error "transport error", m)
  else (Except.ok (List.replicate count (ecReadByte m.ec i2cAddr)),
        { m with log := m.log ++ [Txn.read i2cAddr count relax] })

/-- The `@connected` decorator: raise unless `self.connected`. -/
def requireConnected : M Unit := fun m =>
  if m.connected then (Except.ok (), m)
  else (Except.error "Error: not connected", m)

/-- The message raised by the `@limit_addr` decorator (the space name is
derived from the method name in the source; it is passed explicitly here). -/
def limitMsg (name : String) (lo hi : Int) : String :=
  "Error: " ++ name ++ " address invalid. Range is " ++ toString lo ++ " <= addr <= " ++ toString hi

/-- The `@limit_addr(lo, hi)` decorator: raise unless `lo <= addr <= hi`,
before any transport activity. -/
def limit_addr (name : String) (lo hi addr : Int) : M Unit := fun m =>
  if lo ≤ addr ∧ addr ≤ hi then (Except.ok (), m)
  else (Except.error (limitMsg name lo hi), m)

namespace I2ITE

/-- `I2ITE.__init__`: fresh object over a given simulated device state. -/
def init (ec0 : EcState) (failAt : Option Nat) : Machine :=
  { connected := false, conOpen := false, xaddrh := -1,
    breakpoints := [-1, -1, -1], ec := ec0, log := [], failAt := failAt }

/-- `I2ITE.close`. -/
def close : M Unit := fun m =>
  if m.connected then (Except.ok (), { m with conOpen := false, connected := false })
  else (Except.ok (), m)

/-- `I2ITE._send_dbgr_waveform`: raise if already connected, else emit the
activation waveform `wave` over the GPIO bit-bang channel. -/
def _send_dbgr_waveform : M Unit := fun m =>
  if m.connected then (Except.error "Error: already connected", m)
  else (Except.ok (), { m with log := m.log ++ [Txn.gpio wave] })

/-- `I2ITE.relax` (`self.con._do_epilog()`): a pure bus-release hint with no
effect on the register file. -/
def relax : M Unit := pure ()

/-- `I2ITE.dbgr_read` (decorators `@connected`, `@limit_addr(0x00, 0xff)`). -/
def dbgr_read (addr : Int) (rlx : Bool) : M Nat := do
  requireConnected
  limit_addr "DBGR" 0x00 0xff addr
  con_write ADDR.I2C.CMD [addr] false
  let data ← con_read ADDR.I2C.DATA 1 rlx
  pure (data.headD 0)

/-- `I2ITE.dbgr_write` (decorators `@connected`, `@limit_addr(0x00, 0xff)`). -/
def dbgr_write (addr data : Int) (rlx : Bool) : M Unit := do
  requireConnected
  limit_addr "DBGR" 0x00 0xff addr
  con_write ADDR.I2C.CMD [addr] false
  con_write ADDR.I2C.DATA [data] rlx

/-- `I2ITE.xram_read` (decorators `@connected`, `@limit_addr(0x0000, 0xffff)`).
`addr >> 8 & 0xff` is encoded as `addr / 256 % 256`, `addr & 0xff` as
`addr % 256`. -/
def xram_read (addr : Int) (rlx keep_addrh : Bool) : M Nat := do
  requireConnected
  limit_addr "XRAM" 0x0000 0xffff addr
  let addrh := addr / 256 % 256
  -- save transfers by skipping equal values for addrh (blockwise dumping)
  let m ← getM
  if ¬ keep_addrh ∨ addrh ≠ m.xaddrh then
    modifyM fun mm => { mm with xaddrh := addrh }
    dbgr_write (ADDR.DBGR.XADDRH : Int) addrh false
  else
    pure ()
  dbgr_write (ADDR.DBGR.XADDRL : Int) (addr % 256) false
  dbgr_read (ADDR.DBGR.XDATA : Int) rlx

/-- `I2ITE.xram_write` (decorators `@connected`, `@limit_addr(0x0000, 0xffff)`).
Note the source writes `addr >> 8` (encoded `addr / 256`) unmasked, and does
not touch the `_xaddrh` cache. -/
def xram_write (addr data : Int) (rlx : Bool) : M Unit := do
  requireConnected
  limit_addr "XRAM" 0x0000 0xffff addr
  dbgr_write (ADDR.DBGR.XADDRH : Int) (addr / 256) false
  dbgr_write (ADDR.DBGR.XADDRL : Int) (addr % 256) false
  dbgr_write (ADDR.DBGR.XDATA : Int) data rlx

/-- `I2ITE.sfr_read` (decorators `@connected`, `@limit_addr(0x80, 0xff)`). -/
def sfr_read (addr : Int) (rlx : Bool) : M Nat := do
  requireConnected
  limit_addr "SFR" 0x80 0xff addr
  xram_read (addr + (ADDR.XRAM.SFR : Int)) rlx false

/-- `I2ITE.sfr_write` (decorators `@connected`, `@limit_addr(0x80, 0xff)`). -/
def sfr_write (addr data : Int) (rlx : Bool) : M Unit := do
  requireConnected
  limit_addr "SFR" 0x80 0xff addr
  xram_write (addr + (ADDR.XRAM.SFR : Int)) data rlx

/-- `I2ITE.iram_read` (decorators `@connected`, `@limit_addr(0x00, 0xff)`). -/
def iram_read (addr : Int) (rlx : Bool) : M Nat := do
  requireConnected
  limit_addr "IRAM" 0x00 0xff addr
  xram_read (addr + (ADDR.XRAM.IRAM : Int)) rlx false

/-- `I2ITE.iram_write` (decorators `@connected`, `@limit_addr(0x00, 0xff)`). -/
def iram_write (addr data : Int) (rlx : Bool) : M Unit := do
  requireConnected
  limit_addr "IRAM" 0x00 0xff addr
  xram_write (addr + (ADDR.XRAM.IRAM : Int)) data rlx

/-- `I2ITE.chipid` property (`@connected`). -/
def chipid : M Nat := do
  requireConnected
  let hi ← dbgr_read (ADDR.DBGR.CHIPIDH : Int) true
  let lo ← dbgr_read (ADDR.DBGR.CHIPIDL : Int) true
  let c := hi <<< 8 ||| lo
  if c = 0x0000 ∨ c = 0xffff then throwM "Error: Invalid chipid"
  else pure c

/-- `I2ITE.open`: close a live session first, arm debug mode via the
waveform, open the I2C controller, then mark connected and validate the
link by reading the chip id; any failure in that last step is caught,
rolled back (disconnect, close controller) and re-raised as a connection
failure.  (`open` is a Lean keyword, hence the name `openConn`.) -/
def openConn : M Unit := do
  let m0 ← getM
  if m0.connected then close else pure ()
  _send_dbgr_waveform
  -- self.con = I2cController(); self.con.configure(...); set_latency_timer(1)
  modifyM fun m => { m with conOpen := true }
  (fun m =>
    match (do modifyM fun mm => { mm with connected := true }
              let _ ← chipid
              pure ()) m with
    | (Except.ok _, m') => (Except.ok (), m')
    | (Except.error _, m') =>
        (Except.error "Error: connection failed",
         { m' with connected := false, conOpen := false }) : M Unit)

/-- `I2ITE.connect`. -/
def connect : M Unit := openConn

/-- `I2ITE.ecindar_addr` (`@connected`): write the four ECINDAR bytes,
high byte first (`addr >> 24 & 0xff` encoded as `addr / 2^24 % 256`, etc.). -/
def ecindar_addr (addr : Int) (rlx : Bool) : M Unit := do
  requireConnected
  dbgr_write (ADDR.DBGR.ECINDAR3 : Int) (addr / 16777216 % 256) false
  dbgr_write (ADDR.DBGR.ECINDAR2 : Int) (addr / 65536 % 256) false
  dbgr_write (ADDR.DBGR.ECINDAR1 : Int) (addr / 256 % 256) false
  dbgr_write (ADDR.DBGR.ECINDAR0 : Int) (addr % 256) rlx

/-- `I2ITE.ecindar_write` (`@connected`). -/
def ecindar_write (addr data : Int) (rlx : Bool) : M Unit := do
  requireConnected
  ecindar_addr addr false
  dbgr_write (ADDR.DBGR.ECINDDR : Int) data rlx

/-- `I2ITE.flash_enter_follow_mode` (`@connected`):
`addr = 0x7ffffe00 | (int(ext) << 31)`; the two operands have disjoint
bits, so the `|` is a sum. -/
def flash_enter_follow_mode (ext : Bool) : M Unit := do
  requireConnected
  ecindar_write (0x7ffffe00 + (if ext then 0x80000000 else 0)) 0x00 true

/-- `I2ITE.flash_exit_follow_mode` (`@connected`): re-zero the ECINDAR
window. -/
def flash_exit_follow_mode : M Unit := do
  requireConnected
  ecindar_addr 0x00000000 true

/-- `I2ITE._flash_id`: optionally flip the trigger-source bits in
FLHCTRL3R (`reg &= ~FFSPITRI; reg |= SIFE` — on the byte read back this
clears bit 0 and sets bit 3, encoded arithmetically), enter follow mode,
issue the JEDEC read-ID command 0x9f through ECINDAR, read 3 raw DATA
bytes, and exit follow mode. -/
def _flash_id (ext : Bool) : M (List Nat) := do
  if ext then
    let reg ← xram_read (ADDR.XRAM.FLHCTRL3R : Int) true false
    let reg : Int := (reg : Int) - (reg : Int) % 2 -- reg &= ~FLHCTRL3R_FFSPITRI
    let reg : Int := if reg / 8 % 2 = 1 then reg else reg + 8 -- reg |= FLHCTRL3R_SIFE
    xram_write (ADDR.XRAM.FLHCTRL3R : Int) reg true
  else
    pure ()
  flash_enter_follow_mode ext
  ecindar_write (0x7ffffd00 + (if ext then 0x80000000 else 0)) 0x9f true
  let id ← con_read ADDR.I2C.DATA 3 true
  flash_exit_follow_mode
  pure id

/-- `I2ITE.flash_id` property (`@connected`). -/
def flash_id : M (List Nat) := do
  requireConnected
  _flash_id false

/-- `I2ITE.flash_id_ext` property (`@connected`). -/
def flash_id_ext : M (List Nat) := do
  requireConnected
  _flash_id true

/-- `I2ITE.ec_breakpoint_set` (`@connected`): program breakpoint slot `id`
(0..2) with `addr`; only `addr > 0x3ffff` is rejected.  The three hardware
bytes are `addr >> 16 & 0x03`, `addr >> 8 & 0xff`, `addr & 0xff`, encoded
arithmetically. -/
def ec_breakpoint_set (id addr : Int) : M Unit := do
  requireConnected
  if ¬ (0 ≤ id ∧ id < 3) then throwM "Error: invalid breakpoint id"
  else if addr > 0x3ffff then throwM "Error: invalid breakpoint address"
  else
    dbgr_write ((ADDR.DBGR.BKP1H : Int) + id * 3) (addr / 65536 % 4) false
    dbgr_write ((ADDR.DBGR.BKP1M : Int) + id * 3) (addr / 256 % 256) false
    dbgr_write ((ADDR.DBGR.BKP1L : Int) + id * 3) (addr % 256) true
    modifyM fun m => { m with breakpoints := m.breakpoints.set id.toNat addr }

/-- `I2ITE.ec_breakpoints` property (`@connected`). -/
def ec_breakpoints : M (List Int) := do
  requireConnected
  let m ← getM
  pure m.breakpoints

/-- `I2ITE.ec_breakpoint_add` (`@connected`): no-op when the address is
already present; otherwise program the first unused slot, or fail when
none is free. -/
def ec_breakpoint_add (addr : Int) : M Unit := do
  requireConnected
  let bps ← ec_breakpoints
  if addr ∈ bps then pure ()
  else
    match bps.findIdx? (fun x => x == -1) with
    | some id => ec_breakpoint_set (id : Int) addr
    | none => throwM "Error: no unused breakpoint available"

/-- `I2ITE.ec_breakpoint_remove` (`@connected`): disable the slot holding
`addr` (write 0xff to its high byte) and mark it unused, or fail when the
address is not set. -/
def ec_breakpoint_remove (addr : Int) : M Unit := do
  requireConnected
  let bps ← ec_breakpoints
  match bps.findIdx? (fun x => x == addr) with
  | some id =>
      dbgr_write ((ADDR.DBGR.BKP1H : Int) + (id : Int) * 3) 0xff true
      modifyM fun m => { m with breakpoints := m.breakpoints.set id (-1) }
  | none => throwM "Error: breakpoint is not set"

/-- `I2ITE.ec_breakpoints_clear` (`@connected`): write 0xff to all three
high bytes and reset the table.  The source loop `for i in range(3)` is
unrolled to its three iterations i = 0, 1, 2. -/
def ec_breakpoints_clear : M Unit := do
  requireConnected
  dbgr_write ((ADDR.DBGR.BKP1H : Int) + 0 * 3) 0xff false
  dbgr_write ((ADDR.DBGR.BKP1H : Int) + 1 * 3) 0xff false
  dbgr_write ((ADDR.DBGR.BKP1H : Int) + 2 * 3) 0xff false
  modifyM fun m => { m with breakpoints := [-1, -1, -1] }
  relax

end I2ITE

/-! Derived definitions used by the verification layer. -/

/-- The machine after a successful `con_write`. -/
def conWriteUpd (m : Machine) (i2cAddr : Nat) (data : List Int) (rlx : Bool) : Machine :=
  { m with
    ec := (data.map Int.toNat).foldl (fun e b => ecWriteByte e i2cAddr b) m.ec,
    log := m.log ++ [Txn.write i2cAddr (data.map Int.toNat) rlx] }

/-- Effect of one complete DBGR register write (CMD select + DATA byte) on
the simulated EC. -/
def dbgrWriteEc (ec : EcState) (a v : Nat) : EcState :=
  if a = ADDR.DBGR.XDATA then
    { ec with
      cmd := a,
      xram := rfSet ec.xram (rfGet ec.dbgr ADDR.DBGR.XADDRH * 256 + rfGet ec.dbgr ADDR.DBGR.XADDRL) v }
  else { ec with cmd := a, dbgr := rfSet ec.dbgr a v }

/-- Value produced by one complete DBGR register read (CMD select + DATA
read) on the simulated EC. -/
def dbgrReadVal (ec : EcState) (a : Nat) : Nat :=
  if a = ADDR.DBGR.XDATA then
    rfGet ec.xram (rfGet ec.dbgr ADDR.DBGR.XADDRH * 256 + rfGet ec.dbgr ADDR.DBGR.XADDRL)
  else rfGet ec.dbgr a

/-- Number of logged I2C transactions that select the XADDRH debug register
(the CMD write that precedes every write to XADDRH). -/
def xaddrhSelects (log : List Txn) : Nat :=
  log.countP fun t =>
    match t with
    | Txn.write a d _ => a == ADDR.I2C.CMD && d == [ADDR.DBGR.XADDRH]
    | _ => false

/-- No two occupied breakpoint slots (entries other than the empty marker
-1) hold the same address. -/
def nodupOcc (l : List Int) : Prop := (l.filter fun x => x ≠ -1).Nodup

instance (l : List Int) : Decidable (nodupOcc l) := by
  unfold nodupOcc
  infer_instance

/-- One call in a breakpoint-table call sequence. -/
inductive BpOp where
  | set (id addr : Int)
  | add (addr : Int)
  | remove (addr : Int)
  | clear
  deriving DecidableEq

/-- Whether a call is a direct `ec_breakpoint_set`. -/
def BpOp.isSet : BpOp → Bool
  | BpOp.set _ _ => true
  | _ => false

/-- Run one breakpoint-table call. -/
def runBpOp : BpOp → M Unit
  | BpOp.set id addr => I2ITE.ec_breakpoint_set id addr
  | BpOp.add addr => I2ITE.ec_breakpoint_add addr
  | BpOp.remove addr => I2ITE.ec_breakpoint_remove addr
  | BpOp.clear => I2ITE.ec_breakpoints_clear

/-- Run a sequence of breakpoint-table calls, keeping the state a raised
call left behind (a caught/propagated Python exception does not roll the
object back). -/
def runBpOps : List BpOp → Machine → Machine
  | [], m => m
  | op :: ops, m => runBpOps ops ((runBpOp op m).2)

/-- A state projection `g` is untouched by the operation `x`, on every
path, success or failure. -/
def PreservesF {γ : Type} (g : Machine → γ) {α : Type} (x : M α) : Prop :=
  ∀ m, g ((x m).2) = g m

/-- Decidable equality for run results. -/
instance exceptDecEq {e a : Type} [DecidableEq e] [DecidableEq a] :
    DecidableEq (Except e a) := fun x y =>
  match x, y with
  | Except.error u, Except.error w =>
    if h : u = w then Decidable.isTrue (congrArg Except.error h)
    else Decidable.isFalse fun hh => h (Except.error.inj hh)
  | Except.error _, Except.ok _ => Decidable.isFalse fun hh => Except.noConfusion hh
  | Except.ok _, Except.error _ => Decidable.isFalse fun hh => Except.noConfusion hh
  | Except.ok u, Except.ok w =>
    if h : u = w then Decidable.isTrue (congrArg Except.ok h)
    else Decidable.isFalse fun hh => h (Except.ok.inj hh)

/-- The session-level fields of the machine (everything except the
simulated EC and the transaction log). -/
def sessView (m : Machine) : Bool × Bool × Int × List Int × Option Nat :=
  (m.connected, m.conOpen, m.xaddrh, m.breakpoints, m.failAt)

/-- A concrete connected session over a small simulated device, used as the
common concrete input of the witnesses: chip id registers hold 0x8520 and
XRAM byte 0x1256 holds 0xaa. -/
def m0 : Machine :=
  { connected := true, conOpen := true, xaddrh := -1,
    breakpoints := [-1, -1, -1],
    ec := { cmd := 0, dbgr := [(0, 0x85), (1, 0x20)], xram := [(0x1256, 0xaa)] },
    log := [], failAt := none }

/-- A disconnected machine over a floating bus: both chip id registers
read 0xFF, so the chip id computes to 0xFFFF. -/
def mBad : Machine :=
  { connected := false, conOpen := false, xaddrh := -1,
    breakpoints := [-1, -1, -1],
    ec := { cmd := 0, dbgr := [(0, 0xff), (1, 0xff)], xram := [] },
    log := [], failAt := none }

/-! Generic lemmas about the monad and the register file. -/

theorem bind_apply {α β : Type} (x : M α) (f : α → M β) (m : Machine) :
    (x >>= f) m =
      match x m with
      | (Except.ok a, m1) => f a m1
      | (Except.error e, m1) => (Except.error e, m1) := rfl

theorem pure_apply {α : Type} (a : α) (m : Machine) :
    (pure a : M α) m = (Except.ok a, m) := rfl

theorem toNat_intLit (n : Nat) : (no_index (OfNat.ofNat n) : Int).toNat = OfNat.ofNat n := rfl

theorem rfGet_rfSet_self (f : RegFile) (a v : Nat) : rfGet (rfSet f a v) a = v := by
  simp [rfGet, rfSet, List.find?]

theorem rfGet_rfSet_ne (f : RegFile) (a b v : Nat) (h : b ≠ a) :
    rfGet (rfSet f a v) b = rfGet f b := by
  have hb : (a == b) = false := beq_eq_false_iff_ne.mpr (Ne.symm h)
  simp [rfGet, rfSet, List.find?, hb]

theorem bind_ok {α β : Type} {x : M α} {f : α → M β} {m m' : Machine} {b : β}
    (h : (x >>= f) m = (Except.ok b, m')) :
    ∃ a m1, x m = (Except.ok a, m1) ∧ f a m1 = (Except.ok b, m') := by
  rw [bind_apply] at h
  rcases hx : x m with ⟨ea, m1⟩
  rw [hx] at h
  rcases ea with e | a
  · simp at h
  · exact ⟨a, m1, rfl, h⟩

theorem bind_isOk {α β : Type} {x : M α} {f : α → M β} {m : Machine}
    (h : (((x >>= f) m).1).isOk = true) :
    ∃ a m1, x m = (Except.ok a, m1) ∧ (x >>= f) m = f a m1 := by
  rw [bind_apply] at h
  rcases hx : x m with ⟨ea, m1⟩
  rw [hx] at h
  rcases ea with e | a
  · simp [Except.isOk, Except.toBool] at h
  · exact ⟨a, m1, rfl, by rw [bind_apply, hx]⟩

theorem requireConnected_inv {m m' : Machine} {u : Unit}
    (h : requireConnected m = (Except.ok u, m')) : m' = m := by
  unfold requireConnected at h
  split_ifs at h
  · exact (congrArg Prod.snd h).symm
  · simp at h

theorem con_write_inv {i2cAddr : Nat} {data : List Int} {rlx : Bool} {m m' : Machine} {u : Unit}
    (h : con_write i2cAddr data rlx m = (Except.ok u, m')) :
    m' = conWriteUpd m i2cAddr data rlx := by
  unfold con_write at h
  split_ifs at h
  · simp at h
  · exact (congrArg Prod.snd h).symm
  · simp at h

theorem limit_addr_inv {name : String} {lo hi addr : Int} {m m' : Machine} {u : Unit}
    (h : limit_addr name lo hi addr m = (Except.ok u, m')) : m' = m := by
  unfold limit_addr at h
  split_ifs at h
  · exact (congrArg Prod.snd h).symm
  · simp at h

theorem dbgr_write_inv {addr data : Int} {rlx : Bool} {m m' : Machine} {u : Unit}
    (h : I2ITE.dbgr_write addr data rlx m = (Except.ok u, m')) :
    m' = { m with ec := dbgrWriteEc m.ec addr.toNat data.toNat,
                  log := m.log ++ [Txn.write ADDR.I2C.CMD [addr.toNat] false,
                                   Txn.write ADDR.I2C.DATA [data.toNat] rlx] } := by
  unfold I2ITE.dbgr_write at h
  obtain ⟨u1, m1, h1, h⟩ := bind_ok h
  obtain ⟨u2, m2, h2, h⟩ := bind_ok h
  obtain ⟨u3, m3, h3, h⟩ := bind_ok h
  have e1 := requireConnected_inv h1
  have e2 := limit_addr_inv h2
  have e3 := con_write_inv h3
  have e4 := con_write_inv h
  subst e1; subst e2; subst e3; subst e4
  simp [conWriteUpd, ecWriteByte, dbgrWriteEc, ADDR.I2C.CMD, ADDR.I2C.DATA]

/-! Preservation of session-level state by transport-level operations. -/

theorem pres_bind {γ α β : Type} {g : Machine → γ} {x : M α} {f : α → M β}
    (hx : PreservesF g x) (hf : ∀ a, PreservesF g (f a)) : PreservesF g (x >>= f) := by
  intro m
  rw [bind_apply]
  have hx' := hx m
  rcases hq : x m with ⟨ea, m1⟩
  rw [hq] at hx'
  rcases ea with e | a
  · exact hx'
  · exact (hf a m1).trans hx'

theorem pres_pure {γ α : Type} (g : Machine → γ) (a : α) : PreservesF g (pure a : M α) :=
  fun _ => rfl

theorem pres_throw {γ α : Type} (g : Machine → γ) (e : String) :
    PreservesF g (throwM e : M α) := fun _ => rfl

theorem pres_getM {γ : Type} (g : Machine → γ) : PreservesF g getM := fun _ => rfl

theorem pres_sess_requireConnected : PreservesF sessView requireConnected := by
  intro m
  unfold requireConnected
  split_ifs <;> rfl

theorem pres_sess_limit_addr (name : String) (lo hi addr : Int) :
    PreservesF sessView (limit_addr name lo hi addr) := by
  intro m
  unfold limit_addr
  split_ifs <;> rfl

theorem pres_sess_con_write (a : Nat) (d : List Int) (r : Bool) :
    PreservesF sessView (con_write a d r) := by
  intro m
  unfold con_write
  split_ifs <;> rfl

theorem pres_sess_con_read (a c : Nat) (r : Bool) :
    PreservesF sessView (con_read a c r) := by
  intro m
  unfold con_read
  split_ifs <;> rfl

theorem pres_sess_dbgr_write (addr data : Int) (rlx : Bool) :
    PreservesF sessView (I2ITE.dbgr_write addr data rlx) := by
  unfold I2ITE.dbgr_write
  exact pres_bind pres_sess_requireConnected fun _ =>
    pres_bind (pres_sess_limit_addr _ _ _ _) fun _ =>
      pres_bind (pres_sess_con_write _ _ _) fun _ => pres_sess_con_write _ _ _

theorem pres_sess_dbgr_read (addr : Int) (rlx : Bool) :
    PreservesF sessView (I2ITE.dbgr_read addr rlx) := by
  unfold I2ITE.dbgr_read
  exact pres_bind pres_sess_requireConnected fun _ =>
    pres_bind (pres_sess_limit_addr _ _ _ _) fun _ =>
      pres_bind (pres_sess_con_write _ _ _) fun _ =>
        pres_bind (pres_sess_con_read _ _ _) fun _ => pres_pure _ _

theorem pres_sess_breakpoints {α : Type} {x : M α} (h : PreservesF sessView x) :
    PreservesF Machine.breakpoints x := fun m =>
  congrArg (fun v => v.2.2.2.1) (h m)

theorem pres_sess_xaddrh {α : Type} {x : M α} (h : PreservesF sessView x) :
    PreservesF Machine.xaddrh x := fun m =>
  congrArg (fun v => v.2.2.1) (h m)

/-! Waveform structure. -/

theorem flatten_replicate_getElem (pat : List Nat) (n k i : Nat)
    (hi : i < pat.length) (hk : k < n) :
    ((List.replicate n pat).flatten)[pat.length * k + i]? = pat[i]? := by
  induction n generalizing k with
  | zero => exact absurd hk (Nat.not_lt_zero k)
  | succ n ih =>
    rw [List.replicate_succ, List.flatten_cons]
    cases k with
    | zero =>
      simpa using List.getElem?_append_left (by simpa using hi)
    | succ k =>
      have hidx : pat.length ≤ pat.length * (k + 1) + i := by
        rw [Nat.mul_succ]; omega
      rw [List.getElem?_append_right hidx]
      have hsub : pat.length * (k + 1) + i - pat.length = pat.length * k + i := by
        rw [Nat.mul_succ]; omega
      rw [hsub]
      exact ih k (by omega)

/-- C8: the debug-mode activation waveform is exactly 16000 bytes long and
is the 8-byte pattern 00 00 02 03 01 01 03 02 repeated 2000 times: the byte
at position 8k + i equals BITBANG_PATTERN[i]. -/
theorem C8_waveform :
    wave.length = 16000 ∧
    ∀ k i : Nat, i < 8 → 8 * k + i < 16000 → wave[8 * k + i]? = BITBANG_PATTERN[i]? := by
  have hw : wave = (List.replicate 2000 BITBANG_PATTERN).flatten := rfl
  have h8 : BITBANG_PATTERN.length = 8 := rfl
  constructor
  · rw [hw, List.length_flatten, List.map_replicate, h8, List.sum_replicate]
    norm_num
  · intro k i hi hk
    have hkk : k < 2000 := by omega
    have := flatten_replicate_getElem BITBANG_PATTERN 2000 k i (by omega) hkk
    rw [h8] at this
    rw [hw]
    exact this

/-- C8 witness: the concrete position 8*5 + 3 of the waveform carries
pattern byte 3. -/
theorem C8_waveform_witness :
    (3 < 8 ∧ 8 * 5 + 3 < 16000) ∧ wave[8 * 5 + 3]? = BITBANG_PATTERN[3]? :=
  ⟨by decide, C8_waveform.2 5 3 (by decide) (by decide)⟩

/-- C4: an out-of-bounds address makes each space's read and write fail
with the space's range error, before any transport transaction: the machine
(register file, transaction log, everything) is returned unchanged.  The
final conjuncts spell out that the error message names the space and its
declared bound. -/
theorem C4_out_of_bounds (m : Machine) (hc : m.connected = true) (addr data : Int) :
    (¬ (0x00 ≤ addr ∧ addr ≤ 0xff) →
      I2ITE.dbgr_read addr true m = (Except.error (limitMsg "DBGR" 0x00 0xff), m) ∧
      I2ITE.dbgr_write addr data true m = (Except.error (limitMsg "DBGR" 0x00 0xff), m)) ∧
    (¬ (0x0000 ≤ addr ∧ addr ≤ 0xffff) →
      I2ITE.xram_read addr true false m = (Except.error (limitMsg "XRAM" 0x0000 0xffff), m) ∧
      I2ITE.xram_write addr data true m = (Except.error (limitMsg "XRAM" 0x0000 0xffff), m)) ∧
    (¬ (0x80 ≤ addr ∧ addr ≤ 0xff) →
      I2ITE.sfr_read addr true m = (Except.error (limitMsg "SFR" 0x80 0xff), m) ∧
      I2ITE.sfr_write addr data true m = (Except.error (limitMsg "SFR" 0x80 0xff), m)) ∧
    (¬ (0x00 ≤ addr ∧ addr ≤ 0xff) →
      I2ITE.iram_read addr true m = (Except.error (limitMsg "IRAM" 0x00 0xff), m) ∧
      I2ITE.iram_write addr data true m = (Except.error (limitMsg "IRAM" 0x00 0xff), m)) ∧
    limitMsg "DBGR" 0x00 0xff = "Error: DBGR address invalid. Range is 0 <= addr <= 255" ∧
    limitMsg "XRAM" 0x0000 0xffff = "Error: XRAM address invalid. Range is 0 <= addr <= 65535" ∧
    limitMsg "SFR" 0x80 0xff = "Error: SFR address invalid. Range is 128 <= addr <= 255" ∧
    limitMsg "IRAM" 0x00 0xff = "Error: IRAM address invalid. Range is 0 <= addr <= 255" := by
  refine ⟨?_, ?_, ?_, ?_, by decide, by decide, by decide, by decide⟩ <;>
    intro h <;>
    constructor <;>
    simp [I2ITE.dbgr_read, I2ITE.dbgr_write, I2ITE.xram_read, I2ITE.xram_write,
          I2ITE.sfr_read, I2ITE.sfr_write, I2ITE.iram_read, I2ITE.iram_write,
          requireConnected, limit_addr, bind_apply, pure_apply, hc, h]

/-- C4 witness: address 0x10000 is outside all four spaces; on the concrete
session the XRAM read fails with the XRAM range error and leaves the
machine untouched. -/
theorem C4_out_of_bounds_witness :
    (m0.connected = true ∧ ¬ ((0x0000:Int) ≤ 0x10000 ∧ (0x10000:Int) ≤ 0xffff)) ∧
    I2ITE.xram_read 0x10000 true false m0 =
      (Except.error (limitMsg "XRAM" 0x0000 0xffff), m0) :=
  ⟨⟨rfl, by decide⟩, ((C4_out_of_bounds m0 rfl 0x10000 0).2.1 (by decide)).1⟩

/-- C1: on a connected fault-free session, for every in-bounds address of
each space (DBGR 0x00..0xFF, XRAM 0x0000..0xFFFF, SFR 0x80..0xFF, IRAM
0x00..0xFF) and every byte value, writing the value and then reading the
same address through that space returns the value written. -/
theorem C1_roundtrip (m : Machine) (hc : m.connected = true) (hf : m.failAt = none)
    (a v : Int) (hv : 0 ≤ v ∧ v ≤ 0xff) :
    (0x00 ≤ a ∧ a ≤ 0xff →
      ((I2ITE.dbgr_write a v true >>= fun _ => I2ITE.dbgr_read a true) m).1 =
        Except.ok v.toNat) ∧
    (0x0000 ≤ a ∧ a ≤ 0xffff →
      ((I2ITE.xram_write a v true >>= fun _ => I2ITE.xram_read a true false) m).1 =
        Except.ok v.toNat) ∧
    (0x80 ≤ a ∧ a ≤ 0xff →
      ((I2ITE.sfr_write a v true >>= fun _ => I2ITE.sfr_read a true) m).1 =
        Except.ok v.toNat) ∧
    (0x00 ≤ a ∧ a ≤ 0xff →
      ((I2ITE.iram_write a v true >>= fun _ => I2ITE.iram_read a true) m).1 =
        Except.ok v.toNat) := by
  obtain ⟨hv1, hv2⟩ := hv
  refine ⟨?_, ?_, ?_, ?_⟩ <;> rintro ⟨ha1, ha2⟩
  · simp [I2ITE.dbgr_write, I2ITE.dbgr_read, requireConnected, limit_addr, con_write,
          con_read, validBytes, ecWriteByte, ecReadByte, bind_apply, pure_apply,
          hc, hf, ha1, ha2, hv1, hv2,
          ADDR.I2C.CMD, ADDR.I2C.DATA, ADDR.DBGR.XDATA]
    split_ifs with h1
    · simp [rfGet_rfSet_self]
    · simp [rfGet_rfSet_self]
  · have hdiv1 : (0:Int) ≤ a / 256 := by omega
    have hdiv2 : a / 256 ≤ 0xff := by omega
    have hmod1 : (0:Int) ≤ a % 256 := by omega
    have hmod2 : a % 256 ≤ 0xff := by omega
    have hmm : a / 256 % 256 = a / 256 := by omega
    simp [I2ITE.xram_write, I2ITE.xram_read, I2ITE.dbgr_write, I2ITE.dbgr_read,
          requireConnected, limit_addr, con_write, con_read, validBytes,
          ecWriteByte, ecReadByte, bind_apply, pure_apply, getM, modifyM,
          hc, hf, ha1, ha2, hv1, hv2, hdiv1, hdiv2, hmod1, hmod2, hmm,
          ADDR.I2C.CMD, ADDR.I2C.DATA, ADDR.DBGR.XDATA, ADDR.DBGR.XADDRH, ADDR.DBGR.XADDRL,
          rfGet_rfSet_self, rfGet_rfSet_ne]
  · have hb1 : (0:Int) ≤ a + 0xbf00 := by omega
    have hb2 : a + 0xbf00 ≤ 0xffff := by omega
    have hdiv1 : (0:Int) ≤ (a + 0xbf00) / 256 := by omega
    have hdiv2 : (a + 0xbf00) / 256 ≤ 0xff := by omega
    have hmod1 : (0:Int) ≤ (a + 0xbf00) % 256 := by omega
    have hmod2 : (a + 0xbf00) % 256 ≤ 0xff := by omega
    have hmm : (a + 0xbf00) / 256 % 256 = (a + 0xbf00) / 256 := by omega
    simp [I2ITE.sfr_write, I2ITE.sfr_read, I2ITE.xram_write, I2ITE.xram_read,
          I2ITE.dbgr_write, I2ITE.dbgr_read,
          requireConnected, limit_addr, con_write, con_read, validBytes,
          ecWriteByte, ecReadByte, bind_apply, pure_apply, getM, modifyM,
          hc, hf, ha1, ha2, hv1, hv2, hb1, hb2, hdiv1, hdiv2, hmod1, hmod2, hmm,
          ADDR.I2C.CMD, ADDR.I2C.DATA, ADDR.DBGR.XDATA, ADDR.DBGR.XADDRH, ADDR.DBGR.XADDRL,
          ADDR.XRAM.SFR, rfGet_rfSet_self, rfGet_rfSet_ne]
  · have hb1 : (0:Int) ≤ a + 0xff00 := by omega
    have hb2 : a + 0xff00 ≤ 0xffff := by omega
    have hdiv1 : (0:Int) ≤ (a + 0xff00) / 256 := by omega
    have hdiv2 : (a + 0xff00) / 256 ≤ 0xff := by omega
    have hmod1 : (0:Int) ≤ (a + 0xff00) % 256 := by omega
    have hmod2 : (a + 0xff00) % 256 ≤ 0xff := by omega
    have hmm : (a + 0xff00) / 256 % 256 = (a + 0xff00) / 256 := by omega
    simp [I2ITE.iram_write, I2ITE.iram_read, I2ITE.xram_write, I2ITE.xram_read,
          I2ITE.dbgr_write, I2ITE.dbgr_read,
          requireConnected, limit_addr, con_write, con_read, validBytes,
          ecWriteByte, ecReadByte, bind_apply, pure_apply, getM, modifyM,
          hc, hf, ha1, ha2, hv1, hv2, hb1, hb2, hdiv1, hdiv2, hmod1, hmod2, hmm,
          ADDR.I2C.CMD, ADDR.I2C.DATA, ADDR.DBGR.XDATA, ADDR.DBGR.XADDRH, ADDR.DBGR.XADDRL,
          ADDR.XRAM.IRAM, rfGet_rfSet_self, rfGet_rfSet_ne]

/-- C1 witness: on the concrete session, writing 0x42 to XRAM 0x0090 and
reading it back yields 0x42. -/
theorem C1_roundtrip_witness :
    (m0.connected = true ∧ m0.failAt = none ∧
      ((0:Int) ≤ 0x42 ∧ (0x42:Int) ≤ 0xff) ∧ ((0:Int) ≤ 0x90 ∧ (0x90:Int) ≤ 0xffff)) ∧
    ((I2ITE.xram_write 0x90 0x42 true >>= fun _ => I2ITE.xram_read 0x90 true false) m0).1 =
      Except.ok (Int.toNat 0x42) :=
  ⟨⟨rfl, rfl, by decide, by decide⟩,
   (C1_roundtrip m0 rfl rfl 0x90 0x42 (by decide)).2.1 (by decide)⟩

/-- C5: when connect() reads a chip id of 0x0000 or 0xFFFF on a fault-free
transport, it fails with the connection-failed error and rolls back: the
controller is closed and the session ends Disconnected. -/
theorem C5_invalid_chipid_rollback (m : Machine) (hf : m.failAt = none)
    (hid : rfGet m.ec.dbgr ADDR.DBGR.CHIPIDH <<< 8 ||| rfGet m.ec.dbgr ADDR.DBGR.CHIPIDL = 0x0000 ∨
           rfGet m.ec.dbgr ADDR.DBGR.CHIPIDH <<< 8 ||| rfGet m.ec.dbgr ADDR.DBGR.CHIPIDL = 0xffff) :
    (I2ITE.connect m).1 = Except.error "Error: connection failed" ∧
    ((I2ITE.connect m).2).connected = false ∧
    ((I2ITE.connect m).2).conOpen = false := by
  simp only [ADDR.DBGR.CHIPIDH, ADDR.DBGR.CHIPIDL] at hid
  rcases hcon : m.connected <;>
  simp [I2ITE.connect, I2ITE.openConn, I2ITE.close, I2ITE._send_dbgr_waveform, I2ITE.chipid,
        I2ITE.dbgr_read, requireConnected, limit_addr, con_write, con_read, validBytes,
        ecWriteByte, ecReadByte, bind_apply, pure_apply, getM, modifyM, throwM,
        hcon, hf, hid,
        ADDR.I2C.CMD, ADDR.I2C.DATA, ADDR.DBGR.XDATA, ADDR.DBGR.CHIPIDH, ADDR.DBGR.CHIPIDL]

/-- C5 witness: a disconnected machine whose chip id registers both read
0xFF (chip id 0xFFFF) fails to connect and stays disconnected with the
controller closed. -/
theorem C5_invalid_chipid_rollback_witness :
    (mBad.failAt = none ∧
     (rfGet mBad.ec.dbgr ADDR.DBGR.CHIPIDH <<< 8 |||
      rfGet mBad.ec.dbgr ADDR.DBGR.CHIPIDL) = 0xffff) ∧
    (I2ITE.connect mBad).1 = Except.error "Error: connection failed" ∧
    ((I2ITE.connect mBad).2).connected = false :=
  ⟨⟨rfl, by decide⟩,
   (C5_invalid_chipid_rollback mBad rfl (Or.inr (by decide))).1,
   (C5_invalid_chipid_rollback mBad rfl (Or.inr (by decide))).2.1⟩

/-- C9 counterexample: calling connect() on an already-connected session
does not fail with an already-connected error — it succeeds (silently
closing and reopening the session), refuting the claim that connect() on a
live session fails with AlreadyConnected. -/
theorem C9_counterexample :
    m0.connected = true ∧ ((I2ITE.connect m0).1).isOk = true ∧
    ((I2ITE.connect m0).2).connected = true := by
  refine ⟨rfl, ?_, ?_⟩ <;> decide

/-- C9 amended: only the raw waveform step (`_send_dbgr_waveform`) fails
with the already-connected error on a live session; connect()/open() on a
live session instead closes it first and reconnects, succeeding when the
link is healthy (fault-free transport, valid chip id). -/
theorem C9_amended (m : Machine) (hc : m.connected = true) (hf : m.failAt = none)
    (hid : ¬ (rfGet m.ec.dbgr ADDR.DBGR.CHIPIDH <<< 8 ||| rfGet m.ec.dbgr ADDR.DBGR.CHIPIDL = 0x0000 ∨
              rfGet m.ec.dbgr ADDR.DBGR.CHIPIDH <<< 8 ||| rfGet m.ec.dbgr ADDR.DBGR.CHIPIDL = 0xffff)) :
    I2ITE._send_dbgr_waveform m = (Except.error "Error: already connected", m) ∧
    (I2ITE.connect m).1 = Except.ok () ∧
    ((I2ITE.connect m).2).connected = true := by
  simp only [ADDR.DBGR.CHIPIDH, ADDR.DBGR.CHIPIDL] at hid
  refine ⟨by simp [I2ITE._send_dbgr_waveform, hc], ?_, ?_⟩ <;>
  simp [I2ITE.connect, I2ITE.openConn, I2ITE.close, I2ITE._send_dbgr_waveform, I2ITE.chipid,
        I2ITE.dbgr_read, requireConnected, limit_addr, con_write, con_read, validBytes,
        ecWriteByte, ecReadByte, bind_apply, pure_apply, getM, modifyM, throwM,
        hc, hf, hid,
        ADDR.I2C.CMD, ADDR.I2C.DATA, ADDR.DBGR.XDATA, ADDR.DBGR.CHIPIDH, ADDR.DBGR.CHIPIDL]

/-- C9 amended witness: on the concrete live session the waveform step
fails with the already-connected error while connect() succeeds. -/
theorem C9_amended_witness :
    (m0.connected = true ∧ m0.failAt = none) ∧
    I2ITE._send_dbgr_waveform m0 = (Except.error "Error: already connected", m0) ∧
    (I2ITE.connect m0).1 = Except.ok () :=
  ⟨⟨rfl, rfl⟩, (C9_amended m0 rfl rfl (by decide)).1, (C9_amended m0 rfl rfl (by decide)).2.1⟩

/-- C10: ec_breakpoint_set only rejects addresses above 0x3FFFF; a negative
address (such as -1, the empty-slot marker) on a connected fault-free
session is accepted: the three hardware breakpoint bytes are written (six
I2C transactions) and the negative value is stored in the slot, so storing
-1 leaves the slot identical to an unused one. -/
theorem C10_negative_breakpoint_set (m : Machine) (hc : m.connected = true)
    (hf : m.failAt = none) (id addr : Int) (hid : 0 ≤ id ∧ id < 3) (hneg : addr < 0) :
    (I2ITE.ec_breakpoint_set id addr m).1 = Except.ok () ∧
    ((I2ITE.ec_breakpoint_set id addr m).2).breakpoints = m.breakpoints.set id.toNat addr ∧
    ((I2ITE.ec_breakpoint_set id addr m).2).log.length = m.log.length + 6 ∧
    (addr = -1 →
      ((I2ITE.ec_breakpoint_set id addr m).2).breakpoints = m.breakpoints.set id.toNat (-1)) := by
  obtain ⟨hid1, hid2⟩ := hid
  have hgt : ¬ addr > 0x3ffff := by omega
  have hr1 : (0:Int) ≤ (ADDR.DBGR.BKP1H : Int) + id * 3 := by
    simp [ADDR.DBGR.BKP1H]; omega
  have hr2 : (ADDR.DBGR.BKP1H : Int) + id * 3 ≤ 0xff := by
    simp [ADDR.DBGR.BKP1H]; omega
  have hm1 : (0:Int) ≤ (ADDR.DBGR.BKP1M : Int) + id * 3 := by
    simp [ADDR.DBGR.BKP1M]; omega
  have hm2 : (ADDR.DBGR.BKP1M : Int) + id * 3 ≤ 0xff := by
    simp [ADDR.DBGR.BKP1M]; omega
  have hl1 : (0:Int) ≤ (ADDR.DBGR.BKP1L : Int) + id * 3 := by
    simp [ADDR.DBGR.BKP1L]; omega
  have hl2 : (ADDR.DBGR.BKP1L : Int) + id * 3 ≤ 0xff := by
    simp [ADDR.DBGR.BKP1L]; omega
  have hv1 : (0:Int) ≤ addr / 65536 % 4 := by omega
  have hv2 : addr / 65536 % 4 ≤ 0xff := by omega
  have hv3 : (0:Int) ≤ addr / 256 % 256 := by omega
  have hv4 : addr / 256 % 256 ≤ 0xff := by omega
  have hv5 : (0:Int) ≤ addr % 256 := by omega
  have hv6 : addr % 256 ≤ 0xff := by omega
  have key : (I2ITE.ec_breakpoint_set id addr m).1 = Except.ok () ∧
      ((I2ITE.ec_breakpoint_set id addr m).2).breakpoints = m.breakpoints.set id.toNat addr ∧
      ((I2ITE.ec_breakpoint_set id addr m).2).log.length = m.log.length + 6 := by
    refine ⟨?_, ?_, ?_⟩ <;>
    simp [I2ITE.ec_breakpoint_set, I2ITE.dbgr_write, requireConnected, limit_addr,
          con_write, validBytes, modifyM, throwM, bind_apply, pure_apply,
          hc, hf, hid1, hid2, hgt, hr1, hr2, hm1, hm2, hl1, hl2,
          hv1, hv2, hv3, hv4, hv5, hv6]
  exact ⟨key.1, key.2.1, key.2.2, fun he => key.2.1.trans (by rw [he])⟩

/-! Follow-mode exit behaviour of the flash-ID operation. -/

theorem flash_exit_zeroes {m m' : Machine} {u : Unit}
    (h : I2ITE.flash_exit_follow_mode m = (Except.ok u, m')) :
    rfGet m'.ec.dbgr ADDR.DBGR.ECINDAR3 = 0 ∧ rfGet m'.ec.dbgr ADDR.DBGR.ECINDAR2 = 0 ∧
    rfGet m'.ec.dbgr ADDR.DBGR.ECINDAR1 = 0 ∧ rfGet m'.ec.dbgr ADDR.DBGR.ECINDAR0 = 0 := by
  unfold I2ITE.flash_exit_follow_mode I2ITE.ecindar_addr at h
  obtain ⟨u1, m1, h1, h⟩ := bind_ok h
  obtain ⟨u2, m2, h2, h⟩ := bind_ok h
  obtain ⟨u3, m3, h3, h⟩ := bind_ok h
  obtain ⟨u4, m4, h4, h⟩ := bind_ok h
  obtain ⟨u5, m5, h5, h⟩ := bind_ok h
  have e1 := requireConnected_inv h1
  subst e1
  have e2 := requireConnected_inv h2
  subst e2
  have e3 := dbgr_write_inv h3
  subst e3
  have e4 := dbgr_write_inv h4
  subst e4
  have e5 := dbgr_write_inv h5
  subst e5
  have e6 := dbgr_write_inv h
  subst e6
  norm_num [dbgrWriteEc, ADDR.DBGR.ECINDAR3, ADDR.DBGR.ECINDAR2, ADDR.DBGR.ECINDAR1,
            ADDR.DBGR.ECINDAR0, ADDR.DBGR.XDATA, Int.toNat_natCast,
            toNat_intLit, Int.toNat_zero, Int.toNat_one,
            rfGet_rfSet_self, rfGet_rfSet_ne]

/-- C6 counterexample: with a transport fault injected at the 21st
transaction (the raw 3-byte ID read, after follow mode has been entered),
`_flash_id` propagates the error without exiting follow mode: ECINDAR3 is
left holding 0x7F, not 0. -/
theorem C6_counterexample :
    (I2ITE._flash_id false { m0 with failAt := some 20 }).1 =
      Except.error "transport error" ∧
    rfGet ((I2ITE._flash_id false { m0 with failAt := some 20 }).2).ec.dbgr
      ADDR.DBGR.ECINDAR3 = 0x7f := by
  constructor <;> decide

/-- C6 amended: on every successful run (of either the plain or the
extended variant), the flash-ID operation has exited follow mode before
returning: all four ECINDAR window registers read zero afterwards.  When an
intermediate transport transfer fails, the error propagates and follow mode
is not exited (see the counterexample). -/
theorem C6_amended (ext : Bool) (m : Machine)
    (h : ((I2ITE._flash_id ext m).1).isOk = true) :
    rfGet ((I2ITE._flash_id ext m).2).ec.dbgr ADDR.DBGR.ECINDAR3 = 0 ∧
    rfGet ((I2ITE._flash_id ext m).2).ec.dbgr ADDR.DBGR.ECINDAR2 = 0 ∧
    rfGet ((I2ITE._flash_id ext m).2).ec.dbgr ADDR.DBGR.ECINDAR1 = 0 ∧
    rfGet ((I2ITE._flash_id ext m).2).ec.dbgr ADDR.DBGR.ECINDAR0 = 0 := by
  cases ext
  · unfold I2ITE._flash_id at h ⊢
    simp only [Bool.false_eq_true, if_false] at h ⊢
    obtain ⟨a1, m1, h1, e1⟩ := bind_isOk h
    rw [e1] at h ⊢
    obtain ⟨a2, m2, h2, e2⟩ := bind_isOk h
    rw [e2] at h ⊢
    obtain ⟨a3, m3, h3, e3⟩ := bind_isOk h
    rw [e3] at h ⊢
    obtain ⟨ids, m4, h4, e4⟩ := bind_isOk h
    rw [e4] at h ⊢
    obtain ⟨u5, m5, h5, e5⟩ := bind_isOk h
    rw [e5, pure_apply]
    exact flash_exit_zeroes h5
  · unfold I2ITE._flash_id at h ⊢
    simp only [if_pos] at h ⊢
    obtain ⟨r1, m1, h1, e1⟩ := bind_isOk h
    rw [e1] at h ⊢
    obtain ⟨a2, m2, h2, e2⟩ := bind_isOk h
    rw [e2] at h ⊢
    obtain ⟨a3, m3, h3, e3⟩ := bind_isOk h
    rw [e3] at h ⊢
    obtain ⟨a4, m4, h4, e4⟩ := bind_isOk h
    rw [e4] at h ⊢
    obtain ⟨ids, m5, h5, e5⟩ := bind_isOk h
    rw [e5] at h ⊢
    obtain ⟨u6, m6, h6, e6⟩ := bind_isOk h
    rw [e6, pure_apply]
    exact flash_exit_zeroes h6

/-- C6 amended witness: the concrete fault-free run succeeds and leaves
ECINDAR3 zeroed. -/
theorem C6_amended_witness :
    ((I2ITE._flash_id false m0).1).isOk = true ∧
    rfGet ((I2ITE._flash_id false m0).2).ec.dbgr ADDR.DBGR.ECINDAR3 = 0 :=
  ⟨by decide, (C6_amended false m0 (by decide)).1⟩

/-- C3 counterexample: from a freshly connected session (address-high cache
unset), `xram_write(0x1234, 0x56)` followed by `xram_read(0x1234,
keep_addrh=True)` issues two XADDRH register writes, not one: `xram_write`
always writes XADDRH and does not update the cache, so the read sends it
again.  The read still returns 0x56. -/
theorem C3_counterexample :
    xaddrhSelects (((I2ITE.xram_write 0x1234 0x56 true >>= fun _ =>
        I2ITE.xram_read 0x1234 true true) m0).2).log = 2 ∧
    ((I2ITE.xram_write 0x1234 0x56 true >>= fun _ =>
        I2ITE.xram_read 0x1234 true true) m0).1 = Except.ok 0x56 := by
  constructor <;> decide

/-- C3 amended: on a connected fault-free session, `xram_write(0x1234,
0x56)` then `xram_read(0x1234, keep_addrh=True)` returns 0x56, and the
number of XADDRH writes across the two calls is two — unless the cached
high byte already happened to equal 0x12 before the write, in which case
the read skips its XADDRH write and the total is one. -/
theorem C3_amended (m : Machine) (hc : m.connected = true) (hf : m.failAt = none) :
    (((I2ITE.xram_write 0x1234 0x56 true >>= fun _ =>
        I2ITE.xram_read 0x1234 true true) m).1 = Except.ok 0x56) ∧
    xaddrhSelects (((I2ITE.xram_write 0x1234 0x56 true >>= fun _ =>
        I2ITE.xram_read 0x1234 true true) m).2).log =
      xaddrhSelects m.log + (if m.xaddrh = 0x12 then 1 else 2) := by
  by_cases hx : m.xaddrh = 0x12 <;>
  constructor <;>
  simp [I2ITE.xram_write, I2ITE.xram_read, I2ITE.dbgr_write, I2ITE.dbgr_read,
        requireConnected, limit_addr, con_write, con_read, validBytes,
        ecWriteByte, ecReadByte, bind_apply, pure_apply, getM, modifyM,
        hc, hf, hx, (show ((0x12:Int) = m.xaddrh) ↔ m.xaddrh = 0x12 from eq_comm),
        xaddrhSelects, List.countP_append, List.countP_cons,
        ADDR.I2C.CMD, ADDR.I2C.DATA, ADDR.DBGR.XDATA, ADDR.DBGR.XADDRH, ADDR.DBGR.XADDRL,
        rfGet_rfSet_self, rfGet_rfSet_ne]

/-- C3 amended witness: the concrete session has an unset cache, so the
run returns 0x56 (and, by the amended count, issues two XADDRH writes). -/
theorem C3_amended_witness :
    (m0.connected = true ∧ m0.failAt = none) ∧
    ((I2ITE.xram_write 0x1234 0x56 true >>= fun _ =>
        I2ITE.xram_read 0x1234 true true) m0).1 = Except.ok 0x56 :=
  ⟨⟨rfl, rfl⟩, (C3_amended m0 rfl rfl).1⟩

/-! Cache behaviour of xram_write and connect. -/

theorem pres_sess_xram_write (addr data : Int) (rlx : Bool) :
    PreservesF sessView (I2ITE.xram_write addr data rlx) := by
  unfold I2ITE.xram_write
  exact pres_bind pres_sess_requireConnected fun _ =>
    pres_bind (pres_sess_limit_addr _ _ _ _) fun _ =>
      pres_bind (pres_sess_dbgr_write _ _ _) fun _ =>
        pres_bind (pres_sess_dbgr_write _ _ _) fun _ => pres_sess_dbgr_write _ _ _

theorem pres_ite {γ α : Type} (g : Machine → γ) (c : Prop) [Decidable c] (x y : M α)
    (hx : PreservesF g x) (hy : PreservesF g y) : PreservesF g (if c then x else y) := by
  split_ifs <;> assumption

theorem pres_try {γ : Type} {g : Machine → γ} (inner : M Unit) (hinner : PreservesF g inner)
    (hJ : ∀ m, g { m with connected := false, conOpen := false } = g m) :
    PreservesF g (fun m =>
      match inner m with
      | (Except.ok _, m') => (Except.ok (), m')
      | (Except.error _, m') =>
        (Except.error "Error: connection failed",
         { m' with connected := false, conOpen := false })) := by
  intro m
  have hv := hinner m
  dsimp only
  rcases hq : inner m with ⟨ea, m1⟩
  rw [hq] at hv
  rcases ea with e | a
  · exact (hJ m1).trans hv
  · exact hv

theorem pres_sess_chipid : PreservesF sessView I2ITE.chipid := by
  unfold I2ITE.chipid
  refine pres_bind pres_sess_requireConnected fun _ => ?_
  refine pres_bind (pres_sess_dbgr_read _ _) fun hi => ?_
  refine pres_bind (pres_sess_dbgr_read _ _) fun lo => ?_
  intro m
  by_cases h' : (hi <<< 8 ||| lo) = 0 ∨ (hi <<< 8 ||| lo) = 65535 <;>
    simp [h', throwM, pure_apply]

theorem pres_x_close : PreservesF Machine.xaddrh I2ITE.close := by
  intro m
  unfold I2ITE.close
  split_ifs <;> rfl

theorem pres_x_wave : PreservesF Machine.xaddrh I2ITE._send_dbgr_waveform := by
  intro m
  unfold I2ITE._send_dbgr_waveform
  split_ifs <;> rfl

theorem pres_x_openConn : PreservesF Machine.xaddrh I2ITE.openConn := by
  unfold I2ITE.openConn
  refine pres_bind (pres_getM _) fun m0 => ?_
  refine pres_ite _ _ _ _ (pres_bind pres_x_close fun _ => ?_)
    (pres_bind (pres_pure _ _) fun _ => ?_) <;>
  · refine pres_bind pres_x_wave fun _ => ?_
    refine pres_bind (fun m => rfl) fun _ => ?_
    exact pres_try _
      (pres_bind (fun _ => rfl) fun _ =>
        pres_bind (pres_sess_xaddrh pres_sess_chipid) fun _ => pres_pure _ _)
      (fun m => rfl)

/-- C7 counterexample: the address-high cache is not invalidated by
`xram_write`.  After a keep_addrh read of 0x1256 (caching 0x12) and an
`xram_write` to 0x3456 (hardware XADDRH now 0x34), a keep_addrh read of
0x1256 sends no XADDRH write at all (the stale cache matches) and returns
the byte at 0x3456 (0xbb) instead of the byte at 0x1256 (0xaa, in the
simulated device). -/
theorem C7_counterexample :
    xaddrhSelects ((I2ITE.xram_read 0x1256 true true
        (((I2ITE.xram_read 0x1256 true true >>= fun _ =>
           I2ITE.xram_write 0x3456 0xbb true) m0).2)).2).log =
      xaddrhSelects (((I2ITE.xram_read 0x1256 true true >>= fun _ =>
           I2ITE.xram_write 0x3456 0xbb true) m0).2).log ∧
    (I2ITE.xram_read 0x1256 true true
        (((I2ITE.xram_read 0x1256 true true >>= fun _ =>
           I2ITE.xram_write 0x3456 0xbb true) m0).2)).1 = Except.ok 0xbb := by
  constructor <;> decide

/-- C7 amended: the cached XRAM address-high byte is never written by
`xram_write` and never reset by `connect()`: both leave the cache exactly
as it was, on every path.  The cache starts unset (-1) at construction
(`__init__`) only, and is updated only by `xram_read` itself. -/
theorem C7_amended :
    (∀ (addr data : Int) (rlx : Bool) (m : Machine),
      ((I2ITE.xram_write addr data rlx m).2).xaddrh = m.xaddrh) ∧
    (∀ m : Machine, ((I2ITE.connect m).2).xaddrh = m.xaddrh) ∧
    (∀ (ec0 : EcState) (fa : Option Nat), (I2ITE.init ec0 fa).xaddrh = -1) :=
  ⟨fun addr data rlx m => pres_sess_xaddrh (pres_sess_xram_write addr data rlx) m,
   fun m => pres_x_openConn m,
   fun _ _ => rfl⟩

/-! Breakpoint-table invariants. -/

theorem requireConnected_apply (m : Machine) (hc : m.connected = true) :
    requireConnected m = (Except.ok (), m) := by
  simp [requireConnected, hc]

theorem ec_breakpoints_apply (m : Machine) (hc : m.connected = true) :
    I2ITE.ec_breakpoints m = (Except.ok m.breakpoints, m) := by
  simp [I2ITE.ec_breakpoints, requireConnected, getM, bind_apply, pure_apply, hc]

theorem requireConnected_snd (m : Machine) : (requireConnected m).2 = m := by
  unfold requireConnected
  split_ifs <;> rfl

theorem findIdx?_some_getElem {l : List Int} {p : Int → Bool} {i : Nat}
    (h : l.findIdx? p = some i) :
    i < l.length ∧ ∃ x, l[i]? = some x ∧ p x = true := by
  rw [List.findIdx?_eq_some_iff_findIdx_eq] at h
  obtain ⟨hlt, hidx⟩ := h
  refine ⟨hlt, l.get ⟨i, hlt⟩, by simp, ?_⟩
  subst hidx
  simpa using List.findIdx_getElem (w := hlt)

theorem filter_set_neg_sublist (l : List Int) (i : Nat) :
    List.Sublist ((l.set i (-1)).filter fun x => x ≠ -1) (l.filter fun x => x ≠ -1) := by
  induction l generalizing i with
  | nil => simp
  | cons x xs ih =>
      cases i with
      | zero =>
          have hz : (List.set (x :: xs) 0 (-1)).filter (fun y => y ≠ -1) =
              xs.filter (fun y => y ≠ -1) := by
            simp [List.filter_cons]
          rw [hz, List.filter_cons]
          split_ifs with hx
          · exact List.Sublist.cons x (List.Sublist.refl _)
          · exact List.Sublist.refl _
      | succ i =>
          simp only [List.set, List.filter_cons]
          split_ifs with hx
          · exact List.Sublist.cons₂ x (ih i)
          · exact ih i

theorem nodupOcc_set_neg (l : List Int) (i : Nat) (h : nodupOcc l) :
    nodupOcc (l.set i (-1)) := (filter_set_neg_sublist l i).nodup h

theorem nodupOcc_set_unused (l : List Int) (i : Nat) (addr : Int)
    (hget : l[i]? = some (-1)) (hmem : addr ∉ l) (hnd : nodupOcc l) :
    nodupOcc (l.set i addr) := by
  induction l generalizing i with
  | nil => simp at hget
  | cons x xs ih =>
      cases i with
      | zero =>
          simp only [List.getElem?_cons_zero, Option.some.injEq] at hget
          subst hget
          by_cases ha : addr = -1
          · exact absurd (by simp [ha]) hmem
          · unfold nodupOcc at hnd ⊢
            simp only [List.set, List.filter_cons] at hnd ⊢
            simp only [show (decide ((-1:Int) ≠ -1)) = false from rfl, Bool.false_eq_true,
                       if_false] at hnd
            have hfa : (decide (addr ≠ -1)) = true := by simp [ha]
            rw [hfa, if_pos rfl]
            refine List.Nodup.cons ?_ hnd
            intro hin
            rcases (List.mem_filter.mp hin) with ⟨hin', _⟩
            exact hmem (List.mem_cons_of_mem _ hin')
      | succ i =>
          simp only [List.getElem?_cons_succ] at hget
          have hmem' : addr ∉ xs := fun hh => hmem (List.mem_cons_of_mem _ hh)
          have hmemx : addr ≠ x := fun hh => hmem (by simp [hh])
          unfold nodupOcc at hnd ⊢
          simp only [List.set, List.filter_cons] at hnd ⊢
          by_cases hx : (decide (x ≠ -1)) = true
          · rw [hx, if_pos rfl] at hnd ⊢
            rcases List.nodup_cons.mp hnd with ⟨hxnot, hnd'⟩
            refine List.nodup_cons.mpr ⟨?_, ih i hget hmem' hnd'⟩
            intro hin
            rcases List.mem_filter.mp hin with ⟨hin', hp⟩
            rcases List.mem_or_eq_of_mem_set hin' with hin2 | hin2
            · exact hxnot (List.mem_filter.mpr ⟨hin2, hp⟩)
            · exact hmemx hin2.symm
          · simp only [hx, if_false] at hnd ⊢
            exact ih i hget hmem' hnd

theorem bp_set_fate (id addr : Int) (m : Machine) :
    ((I2ITE.ec_breakpoint_set id addr m).2).breakpoints = m.breakpoints ∨
    (0 ≤ id ∧ id < 3 ∧
      ((I2ITE.ec_breakpoint_set id addr m).2).breakpoints = m.breakpoints.set id.toNat addr) := by
  unfold I2ITE.ec_breakpoint_set
  rw [bind_apply]
  rcases hr : requireConnected m with ⟨er, mr⟩
  have hmr : mr = m := by
    have := requireConnected_snd m
    rw [hr] at this
    exact this
  subst hmr
  rcases er with e | u
  · left; rfl
  · dsimp only
    split_ifs with h1 h2 <;> try (left; rfl)
    case _ =>
      rw [bind_apply]
      rcases hw1 : I2ITE.dbgr_write ((ADDR.DBGR.BKP1H : Int) + id * 3)
          (addr / 65536 % 4) false mr with ⟨e1, mw1⟩
      have hb1 : mw1.breakpoints = mr.breakpoints := by
        have hp := pres_sess_breakpoints (pres_sess_dbgr_write
          ((ADDR.DBGR.BKP1H : Int) + id * 3) (addr / 65536 % 4) false) mr
        rw [hw1] at hp
        exact hp
      rcases e1 with e1 | u1
      · left; exact hb1
      · dsimp only
        rw [bind_apply]
        rcases hw2 : I2ITE.dbgr_write ((ADDR.DBGR.BKP1M : Int) + id * 3)
            (addr / 256 % 256) false mw1 with ⟨e2, mw2⟩
        have hb2 : mw2.breakpoints = mw1.breakpoints := by
          have hp := pres_sess_breakpoints (pres_sess_dbgr_write
            ((ADDR.DBGR.BKP1M : Int) + id * 3) (addr / 256 % 256) false) mw1
          rw [hw2] at hp
          exact hp
        rcases e2 with e2 | u2
        · left; exact hb2.trans hb1
        · dsimp only
          rw [bind_apply]
          rcases hw3 : I2ITE.dbgr_write ((ADDR.DBGR.BKP1L : Int) + id * 3)
              (addr % 256) true mw2 with ⟨e3, mw3⟩
          have hb3 : mw3.breakpoints = mw2.breakpoints := by
            have hp := pres_sess_breakpoints (pres_sess_dbgr_write
              ((ADDR.DBGR.BKP1L : Int) + id * 3) (addr % 256) true) mw2
            rw [hw3] at hp
            exact hp
          rcases e3 with e3 | u3
          · left; exact (hb3.trans hb2).trans hb1
          · right
            refine ⟨h1.1, h1.2, ?_⟩
            show (mw3.breakpoints.set id.toNat addr) = mr.breakpoints.set id.toNat addr
            rw [hb3, hb2, hb1]

theorem bp_add_fate (addr : Int) (m : Machine) :
    ((I2ITE.ec_breakpoint_add addr m).2).breakpoints = m.breakpoints ∨
    (∃ i : Nat, m.breakpoints.findIdx? (fun x => x == -1) = some i ∧
      addr ∉ m.breakpoints ∧
      ((I2ITE.ec_breakpoint_add addr m).2).breakpoints = m.breakpoints.set i addr) := by
  by_cases hc : m.connected = true
  · unfold I2ITE.ec_breakpoint_add
    rw [bind_apply, requireConnected_apply m hc]
    dsimp only
    rw [bind_apply, ec_breakpoints_apply m hc]
    dsimp only
    split_ifs with hmem
    · left; rfl
    · rcases hfind : m.breakpoints.findIdx? (fun x => x == -1) with _ | i
      · left; rfl
      · rcases bp_set_fate (i : Int) addr m with h | ⟨_, _, h⟩
        · left; exact h
        · right
          refine ⟨i, rfl, hmem, ?_⟩
          rw [h, Int.toNat_natCast]
  · unfold I2ITE.ec_breakpoint_add
    rw [bind_apply]
    have hrc : requireConnected m = (Except.error "Error: not connected", m) := by
      simp [requireConnected, hc]
    rw [hrc]
    left; rfl

theorem bp_remove_fate (addr : Int) (m : Machine) :
    ((I2ITE.ec_breakpoint_remove addr m).2).breakpoints = m.breakpoints ∨
    (∃ i : Nat, m.breakpoints.findIdx? (fun x => x == addr) = some i ∧
      ((I2ITE.ec_breakpoint_remove addr m).2).breakpoints = m.breakpoints.set i (-1)) := by
  by_cases hc : m.connected = true
  · unfold I2ITE.ec_breakpoint_remove
    rw [bind_apply, requireConnected_apply m hc]
    dsimp only
    rw [bind_apply, ec_breakpoints_apply m hc]
    dsimp only
    rcases hfind : m.breakpoints.findIdx? (fun x => x == addr) with _ | i
    · left; rfl
    · dsimp only
      rw [bind_apply]
      rcases hw1 : I2ITE.dbgr_write ((ADDR.DBGR.BKP1H : Int) + (i : Int) * 3)
          0xff true m with ⟨e1, mw1⟩
      have hb1 : mw1.breakpoints = m.breakpoints := by
        have hp := pres_sess_breakpoints (pres_sess_dbgr_write
          ((ADDR.DBGR.BKP1H : Int) + (i : Int) * 3) 0xff true) m
        rw [hw1] at hp
        exact hp
      rcases e1 with e1 | u1
      · left; exact hb1
      · right
        refine ⟨i, rfl, ?_⟩
        show (mw1.breakpoints.set i (-1)) = m.breakpoints.set i (-1)
        rw [hb1]
  · unfold I2ITE.ec_breakpoint_remove
    rw [bind_apply]
    have hrc : requireConnected m = (Except.error "Error: not connected", m) := by
      simp [requireConnected, hc]
    rw [hrc]
    left; rfl

theorem bp_clear_fate (m : Machine) :
    ((I2ITE.ec_breakpoints_clear m).2).breakpoints = m.breakpoints ∨
    ((I2ITE.ec_breakpoints_clear m).2).breakpoints = [-1, -1, -1] := by
  unfold I2ITE.ec_breakpoints_clear
  rw [bind_apply]
  rcases hr : requireConnected m with ⟨er, mr⟩
  have hmr : mr = m := by
    have := requireConnected_snd m
    rw [hr] at this
    exact this
  subst hmr
  rcases er with e | u
  · left; rfl
  · dsimp only
    rw [bind_apply]
    rcases hw1 : I2ITE.dbgr_write ((ADDR.DBGR.BKP1H : Int) + 0 * 3) 0xff false mr
      with ⟨e1, mw1⟩
    have hb1 : mw1.breakpoints = mr.breakpoints := by
      have hp := pres_sess_breakpoints (pres_sess_dbgr_write
        ((ADDR.DBGR.BKP1H : Int) + 0 * 3) 0xff false) mr
      rw [hw1] at hp
      exact hp
    rcases e1 with e1 | u1
    · left; exact hb1
    · dsimp only
      rw [bind_apply]
      rcases hw2 : I2ITE.dbgr_write ((ADDR.DBGR.BKP1H : Int) + 1 * 3) 0xff false mw1
        with ⟨e2, mw2⟩
      have hb2 : mw2.breakpoints = mw1.breakpoints := by
        have hp := pres_sess_breakpoints (pres_sess_dbgr_write
          ((ADDR.DBGR.BKP1H : Int) + 1 * 3) 0xff false) mw1
        rw [hw2] at hp
        exact hp
      rcases e2 with e2 | u2
      · left; exact hb2.trans hb1
      · dsimp only
        rw [bind_apply]
        rcases hw3 : I2ITE.dbgr_write ((ADDR.DBGR.BKP1H : Int) + 2 * 3) 0xff false mw2
          with ⟨e3, mw3⟩
        rcases e3 with e3 | u3
        · left
          have hb3 : mw3.breakpoints = mw2.breakpoints := by
            have hp := pres_sess_breakpoints (pres_sess_dbgr_write
              ((ADDR.DBGR.BKP1H : Int) + 2 * 3) 0xff false) mw2
            rw [hw3] at hp
            exact hp
          exact (hb3.trans hb2).trans hb1
        · right; rfl

theorem runBpOp_len3 (op : BpOp) (m : Machine) (h3 : m.breakpoints.length = 3) :
    ((runBpOp op m).2).breakpoints.length = 3 := by
  cases op with
  | set id addr =>
      rcases bp_set_fate id addr m with h | ⟨_, _, h⟩ <;>
        simp [runBpOp, h, h3, List.length_set]
  | add addr =>
      rcases bp_add_fate addr m with h | ⟨i, _, _, h⟩ <;>
        simp [runBpOp, h, h3, List.length_set]
  | remove addr =>
      rcases bp_remove_fate addr m with h | ⟨i, _, h⟩ <;>
        simp [runBpOp, h, h3, List.length_set]
  | clear =>
      rcases bp_clear_fate m with h | h <;> simp [runBpOp, h, h3]

theorem runBpOp_nodup (op : BpOp) (m : Machine) (hnd : nodupOcc m.breakpoints)
    (hop : op.isSet = false) : nodupOcc ((runBpOp op m).2).breakpoints := by
  cases op with
  | set id addr => simp [BpOp.isSet] at hop
  | add addr =>
      rcases bp_add_fate addr m with h | ⟨i, hfind, hmem, h⟩
      · simpa [runBpOp, h] using hnd
      · obtain ⟨hlt, x, hgetx, hpx⟩ := findIdx?_some_getElem hfind
        have hx : x = -1 := by simpa using hpx
        subst hx
        show nodupOcc ((I2ITE.ec_breakpoint_add addr m).2).breakpoints
        rw [h]
        exact nodupOcc_set_unused m.breakpoints i addr hgetx hmem hnd
  | remove addr =>
      rcases bp_remove_fate addr m with h | ⟨i, hfind, h⟩
      · simpa [runBpOp, h] using hnd
      · show nodupOcc ((I2ITE.ec_breakpoint_remove addr m).2).breakpoints
        rw [h]
        exact nodupOcc_set_neg m.breakpoints i hnd
  | clear =>
      rcases bp_clear_fate m with h | h
      · simpa [runBpOp, h] using hnd
      · show nodupOcc ((I2ITE.ec_breakpoints_clear m).2).breakpoints
        rw [h]
        decide

theorem runBpOps_len3 (ops : List BpOp) (m : Machine) (h3 : m.breakpoints.length = 3) :
    (runBpOps ops m).breakpoints.length = 3 := by
  induction ops generalizing m with
  | nil => exact h3
  | cons op ops ih => exact ih _ (runBpOp_len3 op m h3)

theorem runBpOps_nodup (ops : List BpOp) (m : Machine) (hnd : nodupOcc m.breakpoints)
    (hops : ∀ op ∈ ops, op.isSet = false) : nodupOcc (runBpOps ops m).breakpoints := by
  induction ops generalizing m with
  | nil => exact hnd
  | cons op ops ih =>
      exact ih _ (runBpOp_nodup op m hnd (hops op (List.mem_cons_self op ops)))
        (fun o ho => hops o (List.mem_cons_of_mem op ho))

/-- C2 counterexample: two direct ec_breakpoint_set calls with the same
address leave two occupied slots holding the same address, refuting the
claim that after any sequence of set/add/remove/clear calls no two occupied
slots are equal. -/
theorem C2_counterexample :
    (runBpOps [BpOp.set 0 5, BpOp.set 1 5] m0).breakpoints = [5, 5, -1] ∧
    ¬ nodupOcc (runBpOps [BpOp.set 0 5, BpOp.set 1 5] m0).breakpoints := by
  constructor <;> decide

/-- C2 amended: after any sequence of set/add/remove/clear calls from a
table of 3 slots, the table still has exactly 3 slots; and if the sequence
contains no direct ec_breakpoint_set call, a duplicate-free table stays
duplicate-free among occupied slots (ec_breakpoint_set itself performs no
duplicate check and can violate it). -/
theorem C2_amended (ops : List BpOp) (m : Machine) (h3 : m.breakpoints.length = 3)
    (hnd : nodupOcc m.breakpoints) :
    (runBpOps ops m).breakpoints.length = 3 ∧
    ((∀ op ∈ ops, op.isSet = false) → nodupOcc (runBpOps ops m).breakpoints) :=
  ⟨runBpOps_len3 ops m h3, fun hops => runBpOps_nodup ops m hnd hops⟩

/-- C2 amended witness: a concrete add/add/remove/clear sequence on the
concrete session keeps 3 slots and stays duplicate-free. -/
theorem C2_amended_witness :
    (m0.breakpoints.length = 3 ∧ nodupOcc m0.breakpoints) ∧
    ((runBpOps [BpOp.add 0x2000, BpOp.add 0x2000, BpOp.remove 0x2000, BpOp.clear] m0).breakpoints.length = 3 ∧
     ((∀ op ∈ [BpOp.add 0x2000, BpOp.add 0x2000, BpOp.remove 0x2000, BpOp.clear], BpOp.isSet op = false) →
        nodupOcc (runBpOps [BpOp.add 0x2000, BpOp.add 0x2000, BpOp.remove 0x2000, BpOp.clear] m0).breakpoints)) :=
  ⟨⟨rfl, by decide⟩,
   C2_amended [BpOp.add 0x2000, BpOp.add 0x2000, BpOp.remove 0x2000, BpOp.clear] m0 rfl (by decide)⟩

/-- C10 witness: on the concrete session, ec_breakpoint_set(1, -1) succeeds
and stores -1, the empty-slot marker, in slot 1. -/
theorem C10_negative_breakpoint_set_witness :
    (m0.connected = true ∧ m0.failAt = none ∧ ((0:Int) ≤ 1 ∧ (1:Int) < 3) ∧ (-1:Int) < 0) ∧
    (I2ITE.ec_breakpoint_set 1 (-1) m0).1 = Except.ok () ∧
    ((I2ITE.ec_breakpoint_set 1 (-1) m0).2).breakpoints =
      m0.breakpoints.set (Int.toNat 1) (-1) :=
  ⟨⟨rfl, rfl, by decide, by decide⟩,
   (C10_negative_breakpoint_set m0 rfl rfl 1 (-1) ⟨by decide, by decide⟩ (by decide)).1,
   (C10_negative_breakpoint_set m0 rfl rfl 1 (-1) ⟨by decide, by decide⟩ (by decide)).2.1⟩
